import Mathlib

/-!
Verification of the cloud-subscribe loading modal
(`components/cloud_subscribe_with_loading_modal/index.tsx`), the pricing
post renderer, and the skeleton loader primitives.

The modal's controller keeps three pieces of component-local state: a
progress ref in `[0,100]`, a boolean error flag, and a `ProcessState`
enum. We embed that state as a structure and each handler of the
component as a pure transition function on it, with timer bookkeeping
(`setInterval` / `clearInterval`) modelled by an `intervalActive` flag and
`setTimeout` by an explicit scheduled delay in the handler's outcome.
The post renderer and the skeleton loader are pure data-to-view mappings
and are embedded as plain functions.
-/

set_option autoImplicit false

/-- ProcessState enum of the modal: PROCESSING = 0, SUCCESS, FAILED. -/
inductive ProcessState where
  | PROCESSING
  | SUCCESS
  | FAILED
deriving DecidableEq, Repr

/-- Minimum perceived processing duration in milliseconds. -/
def MIN_PROCESSING_MILLISECONDS : Nat := 8000

/-- Soft maximum of the simulated progress before completion. -/
def MAX_FAKE_PROGRESS : Nat := 95

/-- Component-local state of `CloudSubscribeWithLoad`: the `progress` ref,
the `error` flag, the `processingState`, and whether the progress interval
timer is still running. -/
structure ModalState where
  progress : Nat
  error : Bool
  processingState : ProcessState
  intervalActive : Bool
deriving DecidableEq, Repr

/-- State right after the mount effect ran: progress ref starts at 0,
`useState(false)` for the error flag, `useState(ProcessState.PROCESSING)`,
and the interval timer has been started. -/
def initialState : ModalState :=
  { progress := 0
    error := false
    processingState := ProcessState.PROCESSING
    intervalActive := true }

/-- One tick of the progress interval (`updateProgress` in the source): if
the progress already reached `MAX_FAKE_PROGRESS` the interval is cleared
and nothing else changes; otherwise the progress advances by 3, clamped to
`MAX_FAKE_PROGRESS`. -/
def updateProgress (s : ModalState) : ModalState :=
  if s.progress ≥ MAX_FAKE_PROGRESS then
    { s with intervalActive := false }
  else
    { s with progress :=
        if s.progress + 3 > MAX_FAKE_PROGRESS then MAX_FAKE_PROGRESS
        else s.progress + 3 }

/-- The source's `completeSubscribe`: clear the interval, move to
SUCCESS, and force the progress ref to 100. -/
def completeSubscribe (s : ModalState) : ModalState :=
  { s with
      intervalActive := false
      processingState := ProcessState.SUCCESS
      progress := 100 }

/-- External callbacks and dispatches the component can invoke. -/
inductive ExternalCall where
  | onBack
  | onClose
  | subscribeRequest
deriving DecidableEq, Repr

/-- The source's `handleGoBack`: clear the interval, reset the progress
ref to 0, clear the error flag, return to PROCESSING, and invoke the
`props.onBack` callback.  It issues no new subscription request. -/
def handleGoBack (s : ModalState) : ModalState × List ExternalCall :=
  ({ s with
      intervalActive := false
      progress := 0
      error := false
      processingState := ProcessState.PROCESSING },
   [ExternalCall.onBack])

/-- Result of the `subscribeCloudSubscription` dispatch: a boolean on
success, some non-boolean error value on failure (the source only tests
`typeof productUpdated !== 'boolean'`). -/
inductive SubscribeResult where
  | boolean (b : Bool)
  | nonBoolean
deriving DecidableEq, Repr

/-- Outcome of `handleSubscribe` once the request resolved: the state
after the synchronous part ran, and the delay of the `setTimeout` call
scheduling `completeSubscribe`, when one was made. -/
structure SubscribeOutcome where
  state : ModalState
  scheduledDelay : Option Nat
deriving DecidableEq, Repr

/-- Tail of the source's `handleSubscribe`, parameterised over the
resolved request result and the milliseconds elapsed since the recorded
start: a non-boolean result sets the error flag and moves to FAILED; a
boolean result either schedules `completeSubscribe` after the remainder of
the minimum duration, or runs it immediately when the minimum duration has
already elapsed. -/
def handleSubscribe (productUpdated : SubscribeResult)
    (millisecondsElapsed : Nat) (s : ModalState) : SubscribeOutcome :=
  match productUpdated with
  | SubscribeResult.nonBoolean =>
      { state := { s with error := true, processingState := ProcessState.FAILED }
        scheduledDelay := none }
  | SubscribeResult.boolean _ =>
      if millisecondsElapsed < MIN_PROCESSING_MILLISECONDS then
        { state := s
          scheduledDelay := some (MIN_PROCESSING_MILLISECONDS - millisecondsElapsed) }
      else
        { state := completeSubscribe s
          scheduledDelay := none }

/-- State after the scheduled `setTimeout` continuation (when any) has
also fired: a pending delay runs `completeSubscribe`, otherwise the
outcome's state is already final. -/
def eventualState (o : SubscribeOutcome) : ModalState :=
  match o.scheduledDelay with
  | some _ => completeSubscribe o.state
  | none => o.state

/-- States reachable within a single processing attempt, with no go-back:
from the mount state, progress ticks may fire at any time, and while the
state is still PROCESSING the attempt can complete (`completeSubscribe`,
directly or via the timeout) or fail (the non-boolean branch of
`handleSubscribe`).  The failure branch does not clear the interval, so
ticks keep firing afterwards; a stray tick after completion is also kept
in the relation, it leaves the progress at 100. -/
inductive Reachable : ModalState → Prop where
  | init : Reachable initialState
  | tick {s : ModalState} : Reachable s → Reachable (updateProgress s)
  | complete {s : ModalState} : Reachable s →
      s.processingState = ProcessState.PROCESSING →
      Reachable (completeSubscribe s)
  | fail {s : ModalState} (millisecondsElapsed : Nat) : Reachable s →
      s.processingState = ProcessState.PROCESSING →
      Reachable (handleSubscribe SubscribeResult.nonBoolean millisecondsElapsed s).state

/-- Invariant carried by every reachable state of one attempt: progress is
exactly 100 at SUCCESS and at most the soft maximum otherwise. -/
def ProgressInvariant (s : ModalState) : Prop :=
  (s.processingState = ProcessState.SUCCESS → s.progress = 100) ∧
  (s.processingState ≠ ProcessState.SUCCESS → s.progress ≤ MAX_FAKE_PROGRESS)

/-!
Pricing/upgrade post renderer (`OpenPricingModalPost`): feature requests
carried in a post's props are grouped by feature name; the renderer
derives requester display text, maps each feature to its minimum plan,
and picks one of three call-to-action button sets.
-/

/-- FeatureRequest shape of the post's structured props. -/
structure FeatureRequest where
  id : String
  user_id : String
  required_feature : String
  required_plan : String
  create_at : String
  trial : String
deriving DecidableEq, Repr

/-- Entry of the user-profile directory; the renderer only reads the
`username` field. -/
structure UserProfile where
  username : String
deriving DecidableEq, Repr

/-- Minimum-plan display string of the Professional tier. -/
def MinimumPlansForFeature.Professional : String := "Professional plan"

/-- Minimum-plan display string of the Enterprise tier. -/
def MinimumPlansForFeature.Enterprise : String := "Enterprise plan"

/-- Modelled from the spec: the `NonAdminPaidFeatures` feature-name
constants live in `utils/constants`, which is outside this excerpt; the
fixed lookup table of the renderer matches on these four names.  The
properties below depend only on the four being distinct strings. -/
def NonAdminPaidFeatures.GUEST_ACCOUNTS : String := "Guest Accounts"

/-- Modelled from the spec: see `NonAdminPaidFeatures.GUEST_ACCOUNTS`. -/
def NonAdminPaidFeatures.CREATE_MULTIPLE_TEAMS : String := "Create Multiple Teams"

/-- Modelled from the spec: see `NonAdminPaidFeatures.GUEST_ACCOUNTS`. -/
def NonAdminPaidFeatures.ALL_ENTERPRISE_FEATURES : String := "All Enterprise features"

/-- Modelled from the spec: see `NonAdminPaidFeatures.GUEST_ACCOUNTS`. -/
def NonAdminPaidFeatures.CUSTOM_USER_GROUPS : String := "Custom User groups"

/-- The feature names the renderer's `switch` has cases for. -/
def NonAdminPaidFeatures.lookupTable : List String :=
  [NonAdminPaidFeatures.GUEST_ACCOUNTS,
   NonAdminPaidFeatures.CREATE_MULTIPLE_TEAMS,
   NonAdminPaidFeatures.ALL_ENTERPRISE_FEATURES,
   NonAdminPaidFeatures.CUSTOM_USER_GROUPS]

/-- The renderer's `mapFeatureToPlan`: the minimum plan string for a
feature, together with the new value of the component-level
`allProfessional` variable, which only the Enterprise cases set to false;
the default case of the `switch` returns the Professional plan. -/
def mapFeatureToPlan (allProfessional : Bool) (feature : String) :
    String × Bool :=
  if feature = NonAdminPaidFeatures.GUEST_ACCOUNTS ∨
      feature = NonAdminPaidFeatures.CREATE_MULTIPLE_TEAMS then
    (MinimumPlansForFeature.Professional, allProfessional)
  else if feature = NonAdminPaidFeatures.ALL_ENTERPRISE_FEATURES ∨
      feature = NonAdminPaidFeatures.CUSTOM_USER_GROUPS then
    (MinimumPlansForFeature.Enterprise, false)
  else
    (MinimumPlansForFeature.Professional, allProfessional)

/-- Whether a feature name hits one of the Enterprise cases of the
`switch` in `mapFeatureToPlan`. -/
def isEnterpriseFeature (feature : String) : Bool :=
  feature == NonAdminPaidFeatures.ALL_ENTERPRISE_FEATURES ||
    feature == NonAdminPaidFeatures.CUSTOM_USER_GROUPS

/-- The three mutually exclusive call-to-action button sets of the
renderer. -/
inductive ButtonSet where
  | trialFocused
  | professionalUpgrade
  | enterpriseOnly
deriving DecidableEq, Repr

/-- Labels of the buttons each set renders; the enterprise-only set is a
lone 'View upgrade options' button. -/
def buttonLabels : ButtonSet → List String
  | ButtonSet.trialFocused => ["Learn more about trial", "View upgrade options"]
  | ButtonSet.professionalUpgrade => ["Upgrade to Professional", "View upgrade options"]
  | ButtonSet.enterpriseOnly => ["View upgrade options"]

/-- The source's `renderButtons`: a trial request takes precedence and
gets the trial-focused set; otherwise the `allProfessional` flag decides
between the professional-upgrade set and the enterprise-only set. -/
def renderButtons (wasTrialRequest : Bool) (allProfessional : Bool) : ButtonSet :=
  if wasTrialRequest then ButtonSet.trialFocused
  else if allProfessional then ButtonSet.professionalUpgrade
  else ButtonSet.enterpriseOnly

/-- Value of the `allProfessional` variable after the render loop called
`mapFeatureToPlan` once per feature name of the post, starting from its
initial value `true`. -/
def allProfessionalAfter (features : List String) : Bool :=
  features.foldl (fun allProfessional feature =>
    (mapFeatureToPlan allProfessional feature).2) true

/-- Button set the whole component renders for a post with the given
feature names and trial flag: the loop over the features runs before
`renderButtons` reads the `allProfessional` flag. -/
def selectButtons (features : List String) (wasTrialRequest : Bool) : ButtonSet :=
  renderButtons wasTrialRequest (allProfessionalAfter features)

/-- The source's `getUserIdsForUsersThatRequestedFeature`: the requester
ids of a feature's requests, in order. -/
def getUserIdsForUsersThatRequestedFeature (requests : List FeatureRequest) :
    List String :=
  requests.map (fun request => request.user_id)

/-- The source's `getUserNamesForUsersThatRequestedFeature`: each
requester id is looked up in the user-profile directory; a missing entry
yields the `@unknown` placeholder, a present one yields `@` followed by
the profile's username. -/
def getUserNamesForUsersThatRequestedFeature
    (userProfiles : String → Option UserProfile)
    (requests : List FeatureRequest) : List String :=
  (getUserIdsForUsersThatRequestedFeature requests).map (fun userId =>
    match userProfiles userId with
    | none => "@unknown"
    | some profile => "@" ++ profile.username)

/-- Drop the first comma of a character list, keeping everything else. -/
def dropFirstComma : List Char → List Char
  | [] => []
  | c :: cs => if c = ',' then cs else c :: dropFirstComma cs

/-- The `replace(/,([^,]*)$/, '$1')` call of the source: delete the last
comma of the string, when the string has one. -/
def removeLastComma (s : String) : String :=
  String.mk (dropFirstComma s.data.reverse).reverse

/-- The source's `renderUsersThatRequestedFeature`: at least 5 requests
collapse to a member count; otherwise the requester names are joined with
commas, the last one prefixed with the conjunction, and the final comma
removed. -/
def renderUsersThatRequestedFeature
    (userProfiles : String → Option UserProfile)
    (requests : List FeatureRequest) : String :=
  if requests.length ≥ 5 then
    toString requests.length ++ " members"
  else
    let users := getUserNamesForUsersThatRequestedFeature userProfiles requests
    if users.length = 1 then
      users.headD ""
    else
      let lastUser := users.getLastD ""
      let users2 := users.dropLast ++ ["and " ++ lastUser]
      removeLastComma (String.intercalate ", " users2)

/-- Concrete user-profile directory for the worked examples: ids `u1` and
`u2` resolve to usernames `user1` and `user2`, every other id is absent. -/
def exampleProfiles : String → Option UserProfile :=
  fun userId =>
    if userId = "u1" then some { username := "user1" }
    else if userId = "u2" then some { username := "user2" }
    else none

/-- Concrete feature request by the given user id, for the worked
examples. -/
def exampleRequest (userId : String) : FeatureRequest :=
  { id := userId
    user_id := userId
    required_feature := "Custom User groups"
    required_plan := "Enterprise plan"
    create_at := "0"
    trial := "false" }

/-!
Skeleton loaders (`packages/components/src/skeleton_loader`): the
rectangle variant renders its props as pixel-valued CSS lengths.
-/

/-- Props of the rectangle skeleton loader; `borderRadius` is optional. -/
structure RectangleSkeletonLoaderProps where
  height : Nat
  width : Nat
  borderRadius : Option Nat
deriving DecidableEq, Repr

/-- Pixel-valued CSS lengths the rectangle loader renders. -/
structure RectangleSkeletonCss where
  height : String
  width : String
  borderRadius : String
deriving DecidableEq, Repr

/-- The `RectangleSkeletonLoader` styled component: height and width are
the props in pixels and the border radius is the prop in pixels,
defaulting to 8 when the prop is absent (`props?.borderRadius ?? 8`). -/
def RectangleSkeletonLoader (props : RectangleSkeletonLoaderProps) :
    RectangleSkeletonCss :=
  { height := toString props.height ++ "px"
    width := toString props.width ++ "px"
    borderRadius := toString (props.borderRadius.getD 8) ++ "px" }

/-!
Helper lemmas, followed by the main theorems.
-/

theorem updateProgress_processingState (s : ModalState) :
    (updateProgress s).processingState = s.processingState := by
  unfold updateProgress
  split <;> rfl

theorem updateProgress_le (s : ModalState) (h : s.progress ≤ MAX_FAKE_PROGRESS) :
    (updateProgress s).progress ≤ MAX_FAKE_PROGRESS := by
  unfold updateProgress
  split
  · simpa using h
  · simp only [MAX_FAKE_PROGRESS] at h ⊢
    split <;> omega

theorem updateProgress_of_ge (s : ModalState) (h : MAX_FAKE_PROGRESS ≤ s.progress) :
    (updateProgress s).progress = s.progress := by
  unfold updateProgress
  split
  · rfl
  · rename_i hlt
    exact absurd h (by simpa using hlt)

theorem reachable_progressInvariant {s : ModalState} (h : Reachable s) :
    ProgressInvariant s := by
  induction h with
  | init => exact ⟨by simp [initialState], by simp [initialState, MAX_FAKE_PROGRESS]⟩
  | tick h ih =>
      obtain ⟨h100, hmax⟩ := ih
      refine ⟨fun hS => ?_, fun hS => ?_⟩
      · rw [updateProgress_processingState] at hS
        have h1 := h100 hS
        rw [updateProgress_of_ge _ (by rw [h1]; norm_num [MAX_FAKE_PROGRESS])]
        exact h1
      · rw [updateProgress_processingState] at hS
        exact updateProgress_le _ (hmax hS)
  | complete h hp ih =>
      exact ⟨fun _ => rfl, fun hS => absurd rfl hS⟩
  | fail e h hp ih =>
      obtain ⟨h100, hmax⟩ := ih
      refine ⟨fun hS => ?_, fun _ => ?_⟩
      · simp [handleSubscribe] at hS
      · simpa [handleSubscribe] using hmax (by simp [hp])

theorem dropFirstComma_no_comma (xs ys : List Char) (h : ',' ∉ xs) :
    dropFirstComma (xs ++ ',' :: ys) = xs ++ ys := by
  induction xs with
  | nil => simp [dropFirstComma]
  | cons c cs ih =>
      simp only [List.mem_cons, not_or] at h
      have hc : ¬ c = ',' := fun hcc => h.1 hcc.symm
      simp [dropFirstComma, hc, ih h.2]

theorem removeLastComma_split (xs ys : List Char) (h : ',' ∉ ys) :
    (dropFirstComma ((xs ++ ',' :: ys).reverse)).reverse = xs ++ ys := by
  have h' : ',' ∉ ys.reverse := by simpa [List.mem_reverse] using h
  rw [List.reverse_append, List.reverse_cons, List.append_assoc]
  simp only [List.singleton_append]
  rw [dropFirstComma_no_comma ys.reverse xs.reverse h']
  simp [List.reverse_append]

theorem intercalate_pair (x z : String) :
    String.intercalate ", " [x, z] = (x ++ ", ") ++ z := rfl

theorem removeLastComma_two (x y : String) (hy : ',' ∉ y.data) :
    removeLastComma (String.intercalate ", " [x, "and " ++ y]) = x ++ " and " ++ y := by
  apply String.ext
  show (dropFirstComma (String.intercalate ", " [x, "and " ++ y]).data.reverse).reverse
      = (x ++ " and " ++ y).data
  rw [intercalate_pair]
  simp only [String.data_append]
  have hshape : (x.data ++ [',', ' ']) ++ (['a', 'n', 'd', ' '] ++ y.data)
      = x.data ++ ',' :: ([' ', 'a', 'n', 'd', ' '] ++ y.data) := by
    simp
  rw [hshape, removeLastComma_split]
  · simp
  · intro hmem
    rcases List.mem_append.mp hmem with hm | hm
    · simp at hm
    · exact hy hm

theorem render_count_branch (userProfiles : String → Option UserProfile)
    (requests : List FeatureRequest) (h : 5 ≤ requests.length) :
    renderUsersThatRequestedFeature userProfiles requests
      = toString requests.length ++ " members" := by
  unfold renderUsersThatRequestedFeature
  rw [if_pos h]

theorem render_two_users (userProfiles : String → Option UserProfile)
    (r1 r2 : FeatureRequest) (u1 u2 : UserProfile)
    (h1 : userProfiles r1.user_id = some u1)
    (h2 : userProfiles r2.user_id = some u2)
    (hc : ',' ∉ u2.username.data) :
    renderUsersThatRequestedFeature userProfiles [r1, r2]
      = "@" ++ u1.username ++ " and " ++ ("@" ++ u2.username) := by
  have husers : getUserNamesForUsersThatRequestedFeature userProfiles [r1, r2]
      = ["@" ++ u1.username, "@" ++ u2.username] := by
    simp [getUserNamesForUsersThatRequestedFeature,
      getUserIdsForUsersThatRequestedFeature, h1, h2]
  have hstep : renderUsersThatRequestedFeature userProfiles [r1, r2]
      = removeLastComma (String.intercalate ", "
          ["@" ++ u1.username, "and " ++ ("@" ++ u2.username)]) := by
    simp [renderUsersThatRequestedFeature, husers]
  rw [hstep, removeLastComma_two]
  intro hmem
  rw [String.data_append] at hmem
  rcases List.mem_append.mp hmem with hm | hm
  · simp at hm
  · exact hc hm

theorem mapFeatureToPlan_fst (acc : Bool) (feature : String) :
    ((mapFeatureToPlan acc feature).1 = MinimumPlansForFeature.Enterprise)
      ↔ isEnterpriseFeature feature = true := by
  unfold mapFeatureToPlan isEnterpriseFeature
  split
  · rename_i hp
    rcases hp with hp | hp <;> subst hp <;>
      simp [MinimumPlansForFeature.Professional, MinimumPlansForFeature.Enterprise,
        NonAdminPaidFeatures.GUEST_ACCOUNTS, NonAdminPaidFeatures.CREATE_MULTIPLE_TEAMS,
        NonAdminPaidFeatures.ALL_ENTERPRISE_FEATURES, NonAdminPaidFeatures.CUSTOM_USER_GROUPS]
  · split
    · rename_i he
      rcases he with he | he <;> subst he <;>
        simp [MinimumPlansForFeature.Professional, MinimumPlansForFeature.Enterprise,
          NonAdminPaidFeatures.GUEST_ACCOUNTS, NonAdminPaidFeatures.CREATE_MULTIPLE_TEAMS,
          NonAdminPaidFeatures.ALL_ENTERPRISE_FEATURES, NonAdminPaidFeatures.CUSTOM_USER_GROUPS]
    · rename_i hp he
      simp only [not_or] at he
      constructor
      · intro hcontra
        exact absurd hcontra
          (by simp [MinimumPlansForFeature.Professional, MinimumPlansForFeature.Enterprise])
      · intro hcontra
        rw [Bool.or_eq_true, beq_iff_eq, beq_iff_eq] at hcontra
        exact absurd hcontra (not_or.mpr he)

theorem mapFeatureToPlan_snd (acc : Bool) (feature : String) :
    (mapFeatureToPlan acc feature).2 = (acc && !(isEnterpriseFeature feature)) := by
  unfold mapFeatureToPlan isEnterpriseFeature
  split
  · rename_i hp
    rcases hp with hp | hp <;> subst hp <;> cases acc <;> decide
  · split
    · rename_i he
      rcases he with he | he <;> subst he <;> cases acc <;> decide
    · rename_i hp he
      simp only [not_or] at he
      have e1 : (feature == NonAdminPaidFeatures.ALL_ENTERPRISE_FEATURES) = false :=
        beq_eq_false_iff_ne.mpr he.1
      have e2 : (feature == NonAdminPaidFeatures.CUSTOM_USER_GROUPS) = false :=
        beq_eq_false_iff_ne.mpr he.2
      rw [e1, e2]
      cases acc <;> rfl

theorem foldl_allProfessional (features : List String) (acc : Bool) :
    features.foldl (fun a f => (mapFeatureToPlan a f).2) acc
      = (acc && !(features.any isEnterpriseFeature)) := by
  induction features generalizing acc with
  | nil => simp
  | cons f fs ih =>
      rw [List.foldl_cons, ih, mapFeatureToPlan_snd, List.any_cons]
      cases acc <;> cases h : isEnterpriseFeature f <;> simp

theorem allProfessionalAfter_eq (features : List String) :
    allProfessionalAfter features = !(features.any isEnterpriseFeature) := by
  unfold allProfessionalAfter
  rw [foldl_allProfessional]
  simp

theorem selectButtons_false_eq (features : List String) :
    ((selectButtons features false = ButtonSet.enterpriseOnly)
      ↔ features.any isEnterpriseFeature = true) ∧
    ((selectButtons features false = ButtonSet.professionalUpgrade)
      ↔ features.any isEnterpriseFeature = false) := by
  unfold selectButtons renderButtons
  rw [allProfessionalAfter_eq]
  cases h : features.any isEnterpriseFeature <;> simp

theorem exists_enterprise_iff (features : List String) :
    (features.any isEnterpriseFeature = true)
      ↔ ∃ f ∈ features,
          (mapFeatureToPlan true f).1 = MinimumPlansForFeature.Enterprise := by
  rw [List.any_eq_true]
  constructor
  · rintro ⟨f, hf, he⟩
    exact ⟨f, hf, (mapFeatureToPlan_fst true f).mpr he⟩
  · rintro ⟨f, hf, he⟩
    exact ⟨f, hf, (mapFeatureToPlan_fst true f).mp he⟩

/-- C1: within a single processing attempt (no go-back), each
`updateProgress` tick never decreases the progress counter, every
reachable state that is not yet SUCCESS has progress at most the soft
maximum 95, and every reachable SUCCESS state has progress exactly 100. -/
theorem progress_monotone_bounded_success100 :
    (∀ s : ModalState, s.progress ≤ (updateProgress s).progress) ∧
    (∀ s : ModalState, Reachable s → s.processingState ≠ ProcessState.SUCCESS →
      s.progress ≤ MAX_FAKE_PROGRESS) ∧
    (∀ s : ModalState, Reachable s → s.processingState = ProcessState.SUCCESS →
      s.progress = 100) := by
  refine ⟨fun s => ?_, fun s h => (reachable_progressInvariant h).2,
    fun s h => (reachable_progressInvariant h).1⟩
  unfold updateProgress
  split
  · exact Nat.le_refl _
  · rename_i hlt
    simp only [MAX_FAKE_PROGRESS, ge_iff_le, not_le] at hlt
    simp only [MAX_FAKE_PROGRESS]
    split <;> omega

/-- C2: for a boolean request result, completion never happens before the
8000 ms minimum duration counted from the recorded start: when the elapsed
time is below the minimum a timeout for `completeSubscribe` is scheduled
after exactly the remaining delta (and the state is untouched until it
fires), and when at least the minimum has elapsed `completeSubscribe` runs
immediately with nothing scheduled. -/
theorem subscribe_completion_respects_min_duration (b : Bool)
    (millisecondsElapsed : Nat) (s : ModalState) :
    MIN_PROCESSING_MILLISECONDS ≤ millisecondsElapsed +
      ((handleSubscribe (SubscribeResult.boolean b) millisecondsElapsed s).scheduledDelay.getD 0) ∧
    (millisecondsElapsed < MIN_PROCESSING_MILLISECONDS →
      (handleSubscribe (SubscribeResult.boolean b) millisecondsElapsed s).scheduledDelay =
        some (MIN_PROCESSING_MILLISECONDS - millisecondsElapsed) ∧
      (handleSubscribe (SubscribeResult.boolean b) millisecondsElapsed s).state = s) ∧
    (MIN_PROCESSING_MILLISECONDS ≤ millisecondsElapsed →
      (handleSubscribe (SubscribeResult.boolean b) millisecondsElapsed s).scheduledDelay = none ∧
      (handleSubscribe (SubscribeResult.boolean b) millisecondsElapsed s).state = completeSubscribe s) := by
  simp only [handleSubscribe]
  split
  · rename_i hlt
    refine ⟨?_, fun _ => ⟨rfl, rfl⟩, fun hge => absurd hge (Nat.not_le.mpr hlt)⟩
    show MIN_PROCESSING_MILLISECONDS ≤
      millisecondsElapsed + (MIN_PROCESSING_MILLISECONDS - millisecondsElapsed)
    omega
  · rename_i hge
    refine ⟨?_, fun hlt => absurd hlt hge, fun _ => ⟨rfl, rfl⟩⟩
    show MIN_PROCESSING_MILLISECONDS ≤ millisecondsElapsed + 0
    omega

/-- C3: a non-boolean request result sets the error flag, moves the state
to FAILED, schedules no completion, and therefore never reaches SUCCESS
for that result. -/
theorem nonboolean_result_fails (millisecondsElapsed : Nat) (s : ModalState) :
    (handleSubscribe SubscribeResult.nonBoolean millisecondsElapsed s).state.error = true ∧
    (handleSubscribe SubscribeResult.nonBoolean millisecondsElapsed s).state.processingState =
      ProcessState.FAILED ∧
    (handleSubscribe SubscribeResult.nonBoolean millisecondsElapsed s).scheduledDelay = none ∧
    (eventualState (handleSubscribe SubscribeResult.nonBoolean millisecondsElapsed s)).processingState ≠
      ProcessState.SUCCESS := by
  refine ⟨rfl, rfl, rfl, ?_⟩
  simp [handleSubscribe, eventualState]

/-- C4: the renderer picks the enterprise-only set (whose labels are a
lone 'View upgrade options' button) exactly when some requested feature
maps to the Enterprise plan, the professional-upgrade set exactly when
none does, and the trial flag overrides both with the trial-focused set. -/
theorem button_set_selection (features : List String) (wasTrialRequest : Bool) :
    (wasTrialRequest = true →
      selectButtons features wasTrialRequest = ButtonSet.trialFocused) ∧
    (wasTrialRequest = false →
      ((selectButtons features wasTrialRequest = ButtonSet.enterpriseOnly) ↔
        ∃ f ∈ features,
          (mapFeatureToPlan true f).1 = MinimumPlansForFeature.Enterprise)) ∧
    (wasTrialRequest = false →
      ((selectButtons features wasTrialRequest = ButtonSet.professionalUpgrade) ↔
        ¬ ∃ f ∈ features,
          (mapFeatureToPlan true f).1 = MinimumPlansForFeature.Enterprise)) ∧
    buttonLabels ButtonSet.enterpriseOnly = ["View upgrade options"] := by
  refine ⟨fun ht => ?_, fun ht => ?_, fun ht => ?_, rfl⟩
  · subst ht
    simp [selectButtons, renderButtons]
  · subst ht
    rw [(selectButtons_false_eq features).1, exists_enterprise_iff]
  · subst ht
    rw [(selectButtons_false_eq features).2, ← exists_enterprise_iff]
    cases h : features.any isEnterpriseFeature <;> simp

/-- C5 (amended): the requester display collapses to a member count when
there are at least 5 requesters — the source tests `length >= 5`, so
exactly 5 also collapses — and otherwise formats the names as a
natural-language list; in particular 6 requesters give `6 members` and 2
resolved requesters give `@user1 and @user2`. -/
theorem requester_display_threshold :
    (∀ (userProfiles : String → Option UserProfile) (requests : List FeatureRequest),
      5 ≤ requests.length →
      renderUsersThatRequestedFeature userProfiles requests
        = toString requests.length ++ " members") ∧
    (∀ (userProfiles : String → Option UserProfile) (r1 r2 : FeatureRequest)
        (u1 u2 : UserProfile),
      userProfiles r1.user_id = some u1 →
      userProfiles r2.user_id = some u2 →
      ',' ∉ u2.username.data →
      renderUsersThatRequestedFeature userProfiles [r1, r2]
        = "@" ++ u1.username ++ " and " ++ ("@" ++ u2.username)) ∧
    renderUsersThatRequestedFeature exampleProfiles
        [exampleRequest "a", exampleRequest "b", exampleRequest "c",
         exampleRequest "d", exampleRequest "e", exampleRequest "f"]
      = "6 members" ∧
    renderUsersThatRequestedFeature exampleProfiles
        [exampleRequest "u1", exampleRequest "u2"]
      = "@user1 and @user2" := by
  refine ⟨render_count_branch, render_two_users, by decide, by decide⟩

/-- C5 counterexample: with exactly 5 requesters the renderer already
collapses to `5 members` instead of formatting the five names, so the
collapse is not restricted to strictly more than 5 requesters. -/
theorem five_requesters_collapse :
    renderUsersThatRequestedFeature exampleProfiles
        [exampleRequest "u1", exampleRequest "u2", exampleRequest "u3",
         exampleRequest "u4", exampleRequest "u5"]
      = "5 members" ∧
    renderUsersThatRequestedFeature exampleProfiles
        [exampleRequest "u1", exampleRequest "u2", exampleRequest "u3",
         exampleRequest "u4", exampleRequest "u5"]
      ≠ "@user1, @user2, @unknown, @unknown and @unknown" := by
  constructor <;> decide

/-- C6: from every state, the go-back handler resets the progress counter
to 0, clears the error flag, returns the state to PROCESSING, stops the
interval, and invokes exactly the external back-navigation callback — in
particular it never re-issues the subscription request. -/
theorem go_back_resets (s : ModalState) :
    (handleGoBack s).1.progress = 0 ∧
    (handleGoBack s).1.error = false ∧
    (handleGoBack s).1.processingState = ProcessState.PROCESSING ∧
    (handleGoBack s).1.intervalActive = false ∧
    (handleGoBack s).2 = [ExternalCall.onBack] ∧
    ExternalCall.subscribeRequest ∉ (handleGoBack s).2 := by
  refine ⟨rfl, rfl, rfl, rfl, rfl, ?_⟩
  simp [handleGoBack]

/-- C7: the requester-name list has one entry per request; a requester id
with no profile entry yields the `@unknown` placeholder at its position,
and a resolved id yields `@` followed by the profile's username. -/
theorem unknown_user_placeholder (userProfiles : String → Option UserProfile)
    (requests : List FeatureRequest) :
    (getUserNamesForUsersThatRequestedFeature userProfiles requests).length
      = requests.length ∧
    (∀ (i : Nat) (r : FeatureRequest), requests[i]? = some r →
      userProfiles r.user_id = none →
      (getUserNamesForUsersThatRequestedFeature userProfiles requests)[i]?
        = some "@unknown") ∧
    (∀ (i : Nat) (r : FeatureRequest) (p : UserProfile), requests[i]? = some r →
      userProfiles r.user_id = some p →
      (getUserNamesForUsersThatRequestedFeature userProfiles requests)[i]?
        = some ("@" ++ p.username)) := by
  refine ⟨?_, ?_, ?_⟩
  · simp [getUserNamesForUsersThatRequestedFeature,
      getUserIdsForUsersThatRequestedFeature]
  · intro i r hi hnone
    simp [getUserNamesForUsersThatRequestedFeature,
      getUserIdsForUsersThatRequestedFeature, List.getElem?_map, hi, hnone]
  · intro i r p hi hsome
    simp [getUserNamesForUsersThatRequestedFeature,
      getUserIdsForUsersThatRequestedFeature, List.getElem?_map, hi, hsome]

/-- C8: a boolean `false` request result is treated exactly like `true`:
the same outcome is produced, the eventual state (after the scheduled
completion, when any) is SUCCESS, the error flag is left as it was, and
from the mount state it is therefore unset. -/
theorem false_result_reaches_success (millisecondsElapsed : Nat) (s : ModalState) :
    handleSubscribe (SubscribeResult.boolean false) millisecondsElapsed s =
      handleSubscribe (SubscribeResult.boolean true) millisecondsElapsed s ∧
    (eventualState (handleSubscribe (SubscribeResult.boolean false) millisecondsElapsed s)).processingState =
      ProcessState.SUCCESS ∧
    (eventualState (handleSubscribe (SubscribeResult.boolean false) millisecondsElapsed s)).error =
      s.error ∧
    (eventualState (handleSubscribe (SubscribeResult.boolean false) millisecondsElapsed initialState)).error =
      false := by
  refine ⟨rfl, ?_, ?_, ?_⟩
  · simp only [handleSubscribe]
    split <;> simp [eventualState, completeSubscribe]
  · simp only [handleSubscribe]
    split <;> simp [eventualState, completeSubscribe]
  · simp only [handleSubscribe]
    split <;> simp [eventualState, completeSubscribe, initialState]

/-- C9: a feature name outside the fixed lookup table falls into the
default case: it maps to the Professional plan with the
`allProfessional` flag unchanged, and a post whose features are all
unknown never gets the enterprise-only button set. -/
theorem unknown_feature_maps_professional (feature : String) (acc : Bool)
    (features : List String)
    (hf : feature ∉ NonAdminPaidFeatures.lookupTable)
    (hfs : ∀ g ∈ features, g ∉ NonAdminPaidFeatures.lookupTable) :
    mapFeatureToPlan acc feature = (MinimumPlansForFeature.Professional, acc) ∧
    selectButtons features false ≠ ButtonSet.enterpriseOnly := by
  simp only [NonAdminPaidFeatures.lookupTable, List.mem_cons,
    List.not_mem_nil, or_false, not_or] at hf
  obtain ⟨n1, n2, n3, n4⟩ := hf
  constructor
  · unfold mapFeatureToPlan
    rw [if_neg (not_or.mpr ⟨n1, n2⟩), if_neg (not_or.mpr ⟨n3, n4⟩)]
  · have hany : features.any isEnterpriseFeature = false := by
      rw [List.any_eq_false]
      intro g hg
      have hm := hfs g hg
      simp only [NonAdminPaidFeatures.lookupTable, List.mem_cons,
        List.not_mem_nil, or_false, not_or] at hm
      simp [isEnterpriseFeature, hm.2.2.1, hm.2.2.2]
    have hsel := (selectButtons_false_eq features).2.mpr hany
    rw [hsel]
    decide

/-- C9 witness: the concrete unknown feature name `Shared Channels` maps
to the Professional plan, leaves the flag unchanged, and never yields the
enterprise-only set. -/
theorem unknown_feature_maps_professional_witness :
    mapFeatureToPlan true "Shared Channels" = (MinimumPlansForFeature.Professional, true) ∧
    selectButtons ["Shared Channels"] false ≠ ButtonSet.enterpriseOnly :=
  unknown_feature_maps_professional "Shared Channels" true ["Shared Channels"]
    (by decide) (by decide)

/-- C10: the rectangle skeleton loader renders height and width as the
supplied props in pixels, renders a supplied border radius in pixels, and
defaults the border radius to 8 pixels when the prop is omitted. -/
theorem rectangle_loader_css (props : RectangleSkeletonLoaderProps) :
    (RectangleSkeletonLoader props).height = toString props.height ++ "px" ∧
    (RectangleSkeletonLoader props).width = toString props.width ++ "px" ∧
    (∀ r : Nat, props.borderRadius = some r →
      (RectangleSkeletonLoader props).borderRadius = toString r ++ "px") ∧
    (props.borderRadius = none →
      (RectangleSkeletonLoader props).borderRadius = "8px") := by
  refine ⟨rfl, rfl, ?_, ?_⟩
  · intro r hr
    simp [RectangleSkeletonLoader, hr]
  · intro hr
    simp [RectangleSkeletonLoader, hr]
    rfl
